import Mathlib

/-!
# jog: tracing middleware and logger construction

A shallow embedding of

* `tracing/gintracer/middleware.go`: the functional options (`MWOption`), the
  gin `Middleware`, its deferred finalizer, and `Mid`;
* `util.go`: `ProdLogger`, `ProdLogging`, `DevLogger`, `DevLogging`.

Effects are made explicit.  One invocation of the middleware returns an
`Outcome` that records every call the middleware made on its collaborators
(the tracer, the span, the observer, the downstream handler) together with the
panic, if any, that leaves the middleware frame.  Caller-supplied code (the
span filter, the operation-name and URL-tag functions, the span observer, the
handler chain) either returns or panics; a panic of one of the first four
leaves the middleware before its `defer` statement is reached.
-/

set_option autoImplicit false

namespace Jog

/-! ## Values, requests, spans -/

/-- A non-nil Go `interface{}` value: what a span tag holds and what `recover()`
returns while a panic is in flight. -/
inductive GoValue where
  | bool (b : Bool)
  | str (s : String)
  | int (i : Int)
  | uint16 (n : Nat)
  deriving DecidableEq, Repr

/-- The tag writes `SetTag(k, v)` performed on a span, oldest first. -/
abbrev TagLog := List (String × GoValue)

/-- The value a key holds after a sequence of `SetTag` calls: the last write for
that key, `none` when the key was never written. -/
def lastWrite (k : String) : TagLog → Option GoValue
  | [] => none
  | (k', v) :: rest =>
    match lastWrite k rest with
    | some w => some w
    | none => if k' = k then some v else none

/-- An upstream trace identity, as returned by the tracer's `Extract`. -/
structure SpanContext where
  traceID : Nat
  deriving DecidableEq, Repr

/-- A span as a recording tracer sees it: the operation name and parent it was
started with, every `SetTag` call in order, and the number of `Finish` calls. -/
structure Span where
  operationName : String
  parent : Option SpanContext
  tags : TagLog
  finishCalls : Nat
  deriving DecidableEq, Repr

/-- The method `Span.SetTag(key, value)`: one more write in the log. -/
def Span.SetTag (sp : Span) (key : String) (value : GoValue) : Span :=
  { sp with tags := sp.tags ++ [(key, value)] }

/-- The method `Span.Finish()`: one more finish call. -/
def Span.Finish (sp : Span) : Span :=
  { sp with finishCalls := sp.finishCalls + 1 }

/-- The tag a span carries under a key. -/
def Span.tag (sp : Span) (key : String) : Option GoValue :=
  lastWrite key sp.tags

/-- A run of `SetTag` calls, in order. -/
def Span.SetTags (sp : Span) (writes : TagLog) : Span :=
  writes.foldl (fun s kv => s.SetTag kv.1 kv.2) sp

/-- A `context.Context`, as far as spans are concerned. -/
inductive Context where
  | background (id : Nat)
  | withSpan (parent : Context) (span : Span)
  deriving DecidableEq, Repr

/-- The function `opentracing.ContextWithSpan`. -/
def ContextWithSpan (ctx : Context) (span : Span) : Context :=
  Context.withSpan ctx span

/-- The function `opentracing.SpanFromContext`. -/
def SpanFromContext : Context → Option Span
  | Context.background _ => none
  | Context.withSpan _ span => some span

/-- A `*url.URL`; `text` is what `u.String()` renders. -/
structure URL where
  text : String
  deriving DecidableEq, Repr

/-- The method `(*url.URL).String`. -/
def URL.String (u : URL) : String := u.text

/-- The parts of `*http.Request` the middleware reads or replaces. -/
structure Request where
  Method : String
  URL : URL
  Header : List (String × String)
  Context : Context
  deriving DecidableEq, Repr

/-- The method `(*http.Request).WithContext`. -/
def Request.WithContext (r : Request) (ctx : Jog.Context) : Request :=
  { r with Context := ctx }

/-- The identity of a response writer object. -/
structure ResponseWriter where
  id : Nat
  deriving DecidableEq, Repr

/-- The `*gin.Context` fields the middleware touches. -/
structure GinContext where
  Request : Request
  Writer : ResponseWriter
  deriving DecidableEq, Repr

/-- A call made on a response writer. -/
inductive WriterCall where
  | WriteHeader (code : Int)
  | Write (bytes : Nat)
  deriving DecidableEq, Repr

/-- What one run of the downstream handler chain (`c.Next()`) does: the calls it
makes on the `c.Writer` it was given, the tags it sets on the span it finds in
the request context, and how it ends: `none` for a normal return, `some v` for
a panic that `recover()` reports as `v`. -/
structure HandlerRun where
  writes : List WriterCall
  tags : TagLog
  exit : Option GoValue
  deriving DecidableEq, Repr

/-- The rest of the gin handler chain, run by `c.Next()` on the context as the
middleware left it. -/
abbrev HandlerFunc := GinContext → HandlerRun

/-- The consumed tracer capability.  `Extract` either yields the propagated
context or fails; `StartSpan` is the recording one below. -/
structure Tracer where
  Extract : List (String × String) → Except String SpanContext

/-! ## Constants -/

def defaultComponentName : String := "net/http"
def responseSizeKey : String := "http.response_size"

/-- Key of `ext.HTTPMethod`. -/
def HTTPMethod : String := "http.method"
/-- Key of `ext.HTTPUrl`. -/
def HTTPUrl : String := "http.url"
/-- Key of `ext.HTTPStatusCode`. -/
def HTTPStatusCode : String := "http.status_code"
/-- Key of `ext.Component`. -/
def Component : String := "component"
/-- Key of `ext.Error`. -/
def Error : String := "error"
/-- Key of `ext.SpanKind`. -/
def SpanKind : String := "span.kind"
/-- The constant `http.StatusInternalServerError`. -/
def StatusInternalServerError : Int := 500

/-- The call `tr.StartSpan(op, ext.RPCServerOption(ctx))`: a child of `ctx` when there is
one, a root span otherwise, tagged as a server-side span. -/
def StartSpan (op : String) (ctx : Option SpanContext) : Span :=
  { operationName := op, parent := ctx, tags := [(SpanKind, GoValue.str "server")],
    finishCalls := 0 }

/-! ## Functional options -/

/-- How a call into caller-supplied Go code ends: it returns a value, or it
panics with the value `recover()` would report. -/
inductive Call (α : Type) where
  | returns (a : α)
  | panics (v : GoValue)
  deriving DecidableEq, Repr

/-- What one call of the span observer does: the `SetTag` calls it makes on the
span it was given, and how it ends: `none` for a normal return, `some v` for a
panic with `v`. -/
structure ObserverRun where
  tags : TagLog
  exit : Option GoValue
  deriving DecidableEq, Repr

/-- The span observer: caller code that receives the span and the request. -/
abbrev SpanObserver := Span → Request → ObserverRun

structure mwOptions where
  opNameFunc : Request → Call String
  spanFilter : Request → Call Bool
  spanObserver : SpanObserver
  urlTagFunc : URL → Call String
  componentName : String

/-- An `MWOption` controls the behavior of the Middleware. -/
abbrev MWOption := mwOptions → mwOptions

def OperationNameFunc (f : Request → Call String) : MWOption :=
  fun options => { options with opNameFunc := f }

def MWComponentName (componentName : String) : MWOption :=
  fun options => { options with componentName := componentName }

def MWSpanFilter (f : Request → Call Bool) : MWOption :=
  fun options => { options with spanFilter := f }

def MWSpanObserver (f : SpanObserver) : MWOption :=
  fun options => { options with spanObserver := f }

def MWURLTagFunc (f : URL → Call String) : MWOption :=
  fun options => { options with urlTagFunc := f }

/-- The `opts` literal at the top of `Middleware`. -/
def defaultOptions : mwOptions :=
  { opNameFunc := fun r => Call.returns ("HTTP " ++ r.Method)
    spanFilter := fun _ => Call.returns true
    spanObserver := fun _ _ => { tags := [], exit := none }
    urlTagFunc := fun u => Call.returns u.String
    componentName := "" }

/-- The loop `for _, opt := range options { opt(&opts) }` over the defaults. -/
def resolveOptions (options : List MWOption) : mwOptions :=
  options.foldl (fun opts opt => opt opts) defaultOptions

/-! ## The middleware -/

/-- Modelled from the spec: the declaration of `metricsTracker` is not among the
sources; the middleware uses its embedded `ResponseWriter` and its integer
fields `status` (0 = not yet written) and `size` (cumulative bytes). -/
structure metricsTracker where
  ResponseWriter : ResponseWriter
  status : Int
  size : Int
  deriving DecidableEq, Repr

/-- Everything one invocation of the middleware did. -/
structure Outcome where
  /-- Carriers passed to `tr.Extract`. -/
  extractCalls : List (List (String × String))
  /-- Spans obtained from `tr.StartSpan`, in their final state. -/
  spans : List Span
  /-- Arguments of each `spanObserver` call, the span as it was at the call. -/
  observerCalls : List (Span × Request)
  /-- The gin context at each `c.Next()`. -/
  nextCalls : List GinContext
  /-- The `metricsTracker` as the finalizer read it. -/
  trackers : List metricsTracker
  /-- Calls that reached the writer the handler was given. -/
  written : List (ResponseWriter × WriterCall)
  /-- The panic that leaves the middleware, if any. -/
  panic : Option GoValue
  deriving DecidableEq, Repr

/-- The outcome of an invocation that ends in a panic before the handler is
reached and before the finalizer is registered. -/
def Outcome.aborted (extractCalls : List (List (String × String))) (spans : List Span)
    (observerCalls : List (Span × Request)) (v : GoValue) : Outcome :=
  { extractCalls := extractCalls, spans := spans, observerCalls := observerCalls,
    nextCalls := [], trackers := [], written := [], panic := some v }

/-- The deferred function of `Middleware` (lines 148 to 171), given what
`recover()` returned: `none` is the nil result, so `didPanic` is
`panicErr != nil`.  Yields the finished span and the value it panics with
again, if any. -/
def Middleware.deferred (sp : Span) (mt : metricsTracker) (panicErr : Option GoValue) :
    Span × Option GoValue :=
  let didPanic := panicErr.isSome
  let mt := if mt.status = 0 ∧ didPanic = false then { mt with status := 200 } else mt
  let sp := if mt.status > 0 then
      sp.SetTag HTTPStatusCode (GoValue.uint16 (mt.status % 65536).toNat) else sp
  let sp := if mt.size > 0 then sp.SetTag responseSizeKey (GoValue.int mt.size) else sp
  let sp := if mt.status ≥ StatusInternalServerError ∨ didPanic = true then
      sp.SetTag Error (GoValue.bool true) else sp
  let sp := sp.Finish
  (sp, if didPanic then panicErr else none)

/-- The handler function `Middleware(tr, options...)` returns, applied to a gin
context `c` whose remaining chain is `next`.  The calls of `spanFilter`,
`opNameFunc`, `urlTagFunc` and `spanObserver` come before the `defer`
statement, so a panic of one of them leaves the middleware at once. -/
def Middleware (tr : Tracer) (options : List MWOption) (next : HandlerFunc) (c : GinContext) :
    Outcome :=
  let opts := resolveOptions options
  match opts.spanFilter c.Request with
  | Call.panics v => Outcome.aborted [] [] [] v
  | Call.returns false =>
    let run := next c
    { extractCalls := [], spans := [], observerCalls := [], nextCalls := [c], trackers := [],
      written := run.writes.map (fun w => (c.Writer, w)), panic := run.exit }
  | Call.returns true =>
    let ctx := (tr.Extract c.Request.Header).toOption
    match opts.opNameFunc c.Request with
    | Call.panics v => Outcome.aborted [c.Request.Header] [] [] v
    | Call.returns op =>
      let sp := StartSpan op ctx
      let sp := sp.SetTag HTTPMethod (GoValue.str c.Request.Method)
      match opts.urlTagFunc c.Request.URL with
      | Call.panics v => Outcome.aborted [c.Request.Header] [sp] [] v
      | Call.returns url =>
        let sp := sp.SetTag HTTPUrl (GoValue.str url)
        let observed := sp
        let obs := opts.spanObserver sp c.Request
        let sp := sp.SetTags obs.tags
        match obs.exit with
        | some v => Outcome.aborted [c.Request.Header] [sp] [(observed, c.Request)] v
        | none =>
          let componentName :=
            if opts.componentName = "" then defaultComponentName else opts.componentName
          let sp := sp.SetTag Component (GoValue.str componentName)
          let c1 : GinContext :=
            { c with Request := c.Request.WithContext (ContextWithSpan c.Request.Context sp) }
          let mt : metricsTracker := { ResponseWriter := c.Writer, status := 0, size := 0 }
          -- c.Next(): the handler writes to c1.Writer, which is c.Writer and not mt
          let run := next c1
          let sp := sp.SetTags run.tags
          let fin := Middleware.deferred sp mt run.exit
          { extractCalls := [c.Request.Header], spans := [fin.1],
            observerCalls := [(observed, c.Request)], nextCalls := [c1], trackers := [mt],
            written := run.writes.map (fun w => (c1.Writer, w)), panic := fin.2 }

/-- Lines 129 to 134 when `opNameFunc` returned `op` and `urlTagFunc` returned
`url`: the span as started and tagged with method and URL, as the observer
receives it. -/
def Middleware.startedSpan (tr : Tracer) (op url : String) (r : Request) : Span :=
  ((StartSpan op (tr.Extract r.Header).toOption).SetTag HTTPMethod (GoValue.str r.Method)).SetTag
    HTTPUrl (GoValue.str url)

/-- Lines 135 to 142 when the observer returned: its writes, then the component
name. -/
def Middleware.taggedSpan (opts : mwOptions) (started : Span) (r : Request) : Span :=
  (started.SetTags (opts.spanObserver started r).tags).SetTag Component
    (GoValue.str (if opts.componentName = "" then defaultComponentName else opts.componentName))

/-- Lines 143 and 144: the request gets a context carrying the span.  `c.Writer`
is left as it was. -/
def Middleware.tracedContext (c : GinContext) (sp : Span) : GinContext :=
  { c with Request := c.Request.WithContext (ContextWithSpan c.Request.Context sp) }

structure Config where
  ServiceName : String
  ServiceVersion : String
  ComponentName : String
  /-- A Go map, listed in the order the `range` loop visits it. -/
  Tags : TagLog
  /-- A nil function is `none`. -/
  SpanFilter : Option (Request → Call Bool)

/-- The observer `Mid` installs for a non-nil config. -/
def Mid.observer (cfg : Config) : SpanObserver :=
  fun _ _ =>
    { tags :=
        (if cfg.ServiceName ≠ "" then [("service.name", GoValue.str cfg.ServiceName)] else []) ++
        (if cfg.ServiceVersion ≠ "" then [("version", GoValue.str cfg.ServiceVersion)] else []) ++
        cfg.Tags
      exit := none }

/-- The modifiers `Mid` derives from the structured settings. -/
def Mid.structured (trCfg : Option Config) : List MWOption :=
  match trCfg with
  | none => []
  | some cfg =>
    let mwOpts := [MWSpanObserver (Mid.observer cfg)]
    let mwOpts := if cfg.ComponentName ≠ "" then mwOpts ++ [MWComponentName cfg.ComponentName]
      else mwOpts
    let mwOpts := match cfg.SpanFilter with
      | some f => mwOpts ++ [MWSpanFilter f]
      | none => mwOpts
    mwOpts

/-- The list `mwOpts` that `Mid` hands to `Middleware`. -/
def Mid.mwOpts (trCfg : Option Config) (opts : List MWOption) : List MWOption :=
  Mid.structured trCfg ++ opts

def Mid (tr : Tracer) (trCfg : Option Config) (opts : List MWOption) (next : HandlerFunc)
    (c : GinContext) : Outcome :=
  Middleware tr (Mid.mwOpts trCfg opts) next c

/-! ## The response observer -/

/-- Modelled from the spec: the methods of `metricsTracker` are not among the
sources.  `WriteHeader(code)` records `code` into `status` on the first call
only. -/
def metricsTracker.WriteHeader (mt : metricsTracker) (code : Int) : metricsTracker :=
  if mt.status = 0 then { mt with status := code } else mt

/-- Modelled from the spec: the methods of `metricsTracker` are not among the
sources.  `Write(bytes)` adds the bytes written to `size`; if no status was
recorded yet it records the default status 200. -/
def metricsTracker.Write (mt : metricsTracker) (bytes : Nat) : metricsTracker :=
  let mt := if mt.status = 0 then { mt with status := 200 } else mt
  { mt with size := mt.size + bytes }

/-- The tracker after it received a sequence of writer calls. -/
def metricsTracker.receive (mt : metricsTracker) (calls : List WriterCall) : metricsTracker :=
  calls.foldl (fun t call =>
    match call with
    | WriterCall.WriteHeader code => t.WriteHeader code
    | WriterCall.Write bytes => t.Write bytes) mt

/-! ## Modifiers as the package lets callers build them -/

/-- The ways a caller can obtain an `MWOption`: `mwOptions` is unexported, so
the five constructors are the only source of modifiers. -/
inductive Modifier where
  | operationNameFunc (f : Request → Call String)
  | componentName (name : String)
  | spanFilter (f : Request → Call Bool)
  | spanObserver (f : SpanObserver)
  | urlTagFunc (f : URL → Call String)

/-- The `MWOption` a modifier stands for. -/
def Modifier.option : Modifier → MWOption
  | Modifier.operationNameFunc f => OperationNameFunc f
  | Modifier.componentName name => MWComponentName name
  | Modifier.spanFilter f => MWSpanFilter f
  | Modifier.spanObserver f => MWSpanObserver f
  | Modifier.urlTagFunc f => MWURLTagFunc f

def Modifier.opNameFunc? : Modifier → Option (Request → Call String)
  | Modifier.operationNameFunc f => some f
  | _ => none

def Modifier.componentName? : Modifier → Option String
  | Modifier.componentName name => some name
  | _ => none

def Modifier.spanFilter? : Modifier → Option (Request → Call Bool)
  | Modifier.spanFilter f => some f
  | _ => none

def Modifier.spanObserver? : Modifier → Option SpanObserver
  | Modifier.spanObserver f => some f
  | _ => none

def Modifier.urlTagFunc? : Modifier → Option (URL → Call String)
  | Modifier.urlTagFunc f => some f
  | _ => none

/-- The value given by the last modifier in the list that sets a field. -/
def lastSetting {α : Type} (pick : Modifier → Option α) (ms : List Modifier) : Option α :=
  ms.reverse.findSome? pick

/-- The effective configuration in the words of the specification: every field
is the value given by the last modifier that sets it, and the built-in default
when none does. -/
def lastWriterWins (ms : List Modifier) : mwOptions :=
  { opNameFunc := (lastSetting Modifier.opNameFunc? ms).getD defaultOptions.opNameFunc
    spanFilter := (lastSetting Modifier.spanFilter? ms).getD defaultOptions.spanFilter
    spanObserver := (lastSetting Modifier.spanObserver? ms).getD defaultOptions.spanObserver
    urlTagFunc := (lastSetting Modifier.urlTagFunc? ms).getD defaultOptions.urlTagFunc
    componentName := (lastSetting Modifier.componentName? ms).getD defaultOptions.componentName }

/-- The structured settings in the words of the specification: the observer
always, the component name only if non-empty, the span filter only if non-nil;
nothing for a nil config. -/
def structuredSettings : Option Config → List Modifier
  | none => []
  | some cfg =>
    [Modifier.spanObserver (Mid.observer cfg)] ++
    (if cfg.ComponentName = "" then [] else [Modifier.componentName cfg.ComponentName]) ++
    (match cfg.SpanFilter with
      | none => []
      | some f => [Modifier.spanFilter f])

/-! ## Logger construction (`util.go`) -/

/-- The severity levels of `zapcore.Level`. -/
inductive Level where
  | DebugLevel | InfoLevel | WarnLevel | ErrorLevel | DPanicLevel | PanicLevel | FatalLevel
  deriving DecidableEq, Repr

/-- The fields of `zap.Config` that matter here. -/
structure ZapConfig where
  Development : Bool
  /-- Whether `Sampling` is non-nil. -/
  Sampling : Bool
  Level : Level
  deriving DecidableEq, Repr

inductive ZapOption where
  | AddStacktrace (lvl : Level)
  | AddCallerSkip (skip : Nat)
  deriving DecidableEq, Repr

/-- A built `*zap.Logger`: the configuration and options it was built from. -/
structure ZapLogger where
  config : ZapConfig
  options : List ZapOption
  deriving DecidableEq, Repr

/-- The zap library as the constructors consume it: the level parser
`(*zapcore.Level).UnmarshalText` and `Config.Build`. -/
structure Zap where
  UnmarshalText : String → Except String Level
  Build : ZapConfig → List ZapOption → Except String ZapLogger

/-- The result of `zap.NewProductionConfig()`. -/
def NewProductionConfig : ZapConfig :=
  { Development := false, Sampling := true, Level := Level.InfoLevel }

/-- The result of `zap.NewDevelopmentConfig()`. -/
def NewDevelopmentConfig : ZapConfig :=
  { Development := true, Sampling := false, Level := Level.DebugLevel }

/-- A Go result pair `(*zap.Logger, error)`. -/
abbrev LoggerResult := Option ZapLogger × Option String

/-- The pair a library call that either succeeds or fails returns. -/
def toResult : Except String ZapLogger → LoggerResult
  | Except.ok l => (some l, none)
  | Except.error e => (none, some e)

/-- The call `zap.NewDevelopment(options...)`. -/
def Zap.NewDevelopment (zap : Zap) (options : List ZapOption) : LoggerResult :=
  toResult (zap.Build NewDevelopmentConfig options)

/-- A `Logging` wraps a possibly nil `*zap.Logger`. -/
structure Logging where
  zapLogger : Option ZapLogger
  deriving DecidableEq, Repr

def ProdLogger (zap : Zap) (logLevel : String) : LoggerResult :=
  let level := Level.InfoLevel
  let parsed := if logLevel ≠ "" then zap.UnmarshalText logLevel else Except.ok level
  match parsed with
  | Except.error err => (none, some err)
  | Except.ok level =>
    let logConfig := NewProductionConfig
    let logConfig := { logConfig with Sampling := false }
    let logConfig := { logConfig with Level := level }
    toResult (zap.Build logConfig [])

def ProdLogging (zap : Zap) (logLevel : String) : Logging × Option String :=
  let r := ProdLogger zap logLevel
  ({ zapLogger := r.1 }, r.2)

/-- The parameter `logLevel` is not used by the body. -/
def DevLogger (zap : Zap) (_logLevel : String) : LoggerResult :=
  zap.NewDevelopment [ZapOption.AddStacktrace Level.FatalLevel, ZapOption.AddCallerSkip 1]

def DevLogging (zap : Zap) (logLevel : String) : Logging × Option String :=
  let r := DevLogger zap logLevel
  ({ zapLogger := r.1 }, r.2)

/-! ## Concrete inputs -/

/-- A tracer that finds no propagated context in any carrier. -/
def rootTracer : Tracer :=
  { Extract := fun _ => Except.error "SpanContext not found in Extract carrier" }

def pingRequest : Request :=
  { Method := "GET", URL := { text := "/ping" }, Header := [], Context := Context.background 0 }

def pingContext : GinContext :=
  { Request := pingRequest, Writer := { id := 1 } }

/-- A handler that returns without touching the response. -/
def silentHandler : HandlerFunc :=
  fun _ => { writes := [], tags := [], exit := none }

/-- A handler that sets a status and returns. -/
def statusHandler (code : Int) : HandlerFunc :=
  fun _ => { writes := [WriterCall.WriteHeader code], tags := [], exit := none }

/-- A handler that writes a 37-byte body and then a 63-byte body. -/
def bodyHandler : HandlerFunc :=
  fun _ => { writes := [WriterCall.Write 37, WriterCall.Write 63], tags := [], exit := none }

/-- A handler that panics. -/
def panicHandler (v : GoValue) : HandlerFunc :=
  fun _ => { writes := [], tags := [], exit := some v }

/-- A configuration with one static tag. -/
def teamConfig : Config :=
  { ServiceName := "svc", ServiceVersion := "", ComponentName := "",
    Tags := [("team", GoValue.str "core")], SpanFilter := none }

/-- A handler that tags the span it finds in the request context as an error
and returns without touching the response. -/
def taggingHandler : HandlerFunc :=
  fun _ => { writes := [], tags := [(Error, GoValue.bool true)], exit := none }

/-- An observer that tags the span with its own component name. -/
def componentObserver : SpanObserver :=
  fun _ _ => { tags := [(Component, GoValue.str "mine")], exit := none }

/-- An observer that does nothing, as an explicit modifier would pass it. -/
def quietObserver : SpanObserver :=
  fun _ _ => { tags := [], exit := none }

/-- An observer that sets one tag and then panics. -/
def failingObserver : SpanObserver :=
  fun _ _ => { tags := [("seen", GoValue.bool true)], exit := some (GoValue.str "observer failed") }

/-- A URL-tag function that panics. -/
def failingURLTag : URL → Call String :=
  fun _ => Call.panics (GoValue.str "bad url")

/-- An operation-name function that panics. -/
def failingOpName : Request → Call String :=
  fun _ => Call.panics (GoValue.str "no name")

/-- A zap whose level parser knows the seven lower-case level names and whose
`Build` always succeeds. -/
def plainZap : Zap :=
  { UnmarshalText := fun text =>
      if text = "debug" then Except.ok Level.DebugLevel
      else if text = "info" then Except.ok Level.InfoLevel
      else if text = "warn" then Except.ok Level.WarnLevel
      else if text = "error" then Except.ok Level.ErrorLevel
      else if text = "dpanic" then Except.ok Level.DPanicLevel
      else if text = "panic" then Except.ok Level.PanicLevel
      else if text = "fatal" then Except.ok Level.FatalLevel
      else Except.error "unrecognized level"
    Build := fun config options => Except.ok { config := config, options := options } }

/-! ## Tag logs -/

theorem lastWrite_append (k : String) (a b : TagLog) :
    lastWrite k (a ++ b) =
      match lastWrite k b with
      | some w => some w
      | none => lastWrite k a := by
  induction a with
  | nil =>
    simp only [List.nil_append, lastWrite]
    cases lastWrite k b <;> rfl
  | cons kv rest ih =>
    obtain ⟨k', v⟩ := kv
    have step : lastWrite k ((k', v) :: rest ++ b) =
        match lastWrite k (rest ++ b) with
        | some w => some w
        | none => if k' = k then some v else none := rfl
    rw [step, ih]
    simp only [lastWrite]
    cases lastWrite k b <;> rfl

theorem lastWrite_append_singleton_same (k : String) (a : TagLog) (v : GoValue) :
    lastWrite k (a ++ [(k, v)]) = some v := by
  simp [lastWrite_append, lastWrite]

theorem lastWrite_append_singleton_other (k k' : String) (a : TagLog) (v : GoValue)
    (h : k' ≠ k) : lastWrite k (a ++ [(k', v)]) = lastWrite k a := by
  simp [lastWrite_append, lastWrite, h]

theorem lastWrite_eq_none_iff (k : String) (l : TagLog) :
    lastWrite k l = none ↔ ∀ v, (k, v) ∉ l := by
  induction l with
  | nil => simp [lastWrite]
  | cons kv rest ih =>
    obtain ⟨k', v'⟩ := kv
    simp only [lastWrite, List.mem_cons, not_or]
    cases hr : lastWrite k rest with
    | some w =>
      simp only [false_iff, not_forall, reduceCtorEq]
      have : ¬ ∀ v, (k, v) ∉ rest := fun h => by simp [ih.mpr h] at hr
      push_neg at this
      obtain ⟨v, hv⟩ := this
      exact ⟨v, fun h => h.2 hv⟩
    | none =>
      have hnone := ih.mp hr
      by_cases hk : k' = k
      · subst hk
        simp only [if_true, false_iff, not_forall, reduceCtorEq]
        exact ⟨v', fun h => h.1 rfl⟩
      · simp only [hk, if_false, true_iff]
        intro v
        refine ⟨fun h => hk ?_, hnone v⟩
        exact (Prod.mk.inj h).1.symm

theorem lastWrite_of_mem_nodup (k : String) (v : GoValue) (l : TagLog)
    (hnd : (l.map Prod.fst).Nodup) (hmem : (k, v) ∈ l) : lastWrite k l = some v := by
  induction l with
  | nil => simp at hmem
  | cons kv rest ih =>
    obtain ⟨k', v'⟩ := kv
    simp only [List.map_cons, List.nodup_cons] at hnd
    simp only [lastWrite]
    rcases List.mem_cons.mp hmem with h | h
    · obtain ⟨rfl, rfl⟩ := Prod.mk.inj h
      have : lastWrite k rest = none := by
        rw [lastWrite_eq_none_iff]
        intro w hw
        exact hnd.1 (List.mem_map.mpr ⟨(k, w), hw, rfl⟩)
      simp [this]
    · simp [ih hnd.2 h]

theorem Span.SetTags_tags (sp : Span) (writes : TagLog) :
    (sp.SetTags writes).tags = sp.tags ++ writes := by
  induction writes generalizing sp with
  | nil => simp [Span.SetTags]
  | cons kv rest ih =>
    have := ih (sp.SetTag kv.1 kv.2)
    simp only [Span.SetTags, List.foldl_cons] at this ⊢
    rw [this]
    simp [Span.SetTag]

theorem Span.SetTags_finishCalls (sp : Span) (writes : TagLog) :
    (sp.SetTags writes).finishCalls = sp.finishCalls := by
  induction writes generalizing sp with
  | nil => simp [Span.SetTags]
  | cons kv rest ih =>
    have := ih (sp.SetTag kv.1 kv.2)
    simp only [Span.SetTags, List.foldl_cons] at this ⊢
    rw [this]
    simp [Span.SetTag]

/-! ## The finalizer on the tracker the middleware builds -/

theorem Middleware.deferred_finishCalls (sp : Span) (mt : metricsTracker)
    (panicErr : Option GoValue) :
    (Middleware.deferred sp mt panicErr).1.finishCalls = sp.finishCalls + 1 := by
  simp only [Middleware.deferred, Span.Finish]
  split_ifs <;> simp [Span.SetTag]

theorem Middleware.deferred_fresh_return (sp : Span) (w : ResponseWriter) :
    Middleware.deferred sp { ResponseWriter := w, status := 0, size := 0 } none =
      ((sp.SetTag HTTPStatusCode (GoValue.uint16 200)).Finish, none) := by
  simp [Middleware.deferred, StatusInternalServerError]

theorem Middleware.deferred_fresh_panic (sp : Span) (w : ResponseWriter) (v : GoValue) :
    Middleware.deferred sp { ResponseWriter := w, status := 0, size := 0 } (some v) =
      ((sp.SetTag Error (GoValue.bool true)).Finish, some v) := by
  simp [Middleware.deferred, StatusInternalServerError]

/-- The tags on the finished span when the handler returned. -/
theorem Middleware.returned_tags (sp : Span) (w : ResponseWriter) :
    (Middleware.deferred sp { ResponseWriter := w, status := 0, size := 0 } none).1.tags =
      sp.tags ++ [(HTTPStatusCode, GoValue.uint16 200)] := by
  simp [Middleware.deferred_fresh_return, Span.Finish, Span.SetTag]

/-- The tags on the finished span when the handler panicked. -/
theorem Middleware.panicked_tags (sp : Span) (w : ResponseWriter) (v : GoValue) :
    (Middleware.deferred sp { ResponseWriter := w, status := 0, size := 0 } (some v)).1.tags =
      sp.tags ++ [(Error, GoValue.bool true)] := by
  simp [Middleware.deferred_fresh_panic, Span.Finish, Span.SetTag]

/-! ## The spans before the handler -/

theorem Middleware.startedSpan_tags (tr : Tracer) (op url : String) (r : Request) :
    (Middleware.startedSpan tr op url r).tags =
      [(SpanKind, GoValue.str "server"), (HTTPMethod, GoValue.str r.Method),
        (HTTPUrl, GoValue.str url)] := by
  simp [Middleware.startedSpan, Span.SetTag, StartSpan]

theorem Middleware.startedSpan_finishCalls (tr : Tracer) (op url : String) (r : Request) :
    (Middleware.startedSpan tr op url r).finishCalls = 0 := by
  simp [Middleware.startedSpan, Span.SetTag, StartSpan]

theorem Middleware.taggedSpan_tags (opts : mwOptions) (started : Span) (r : Request) :
    (Middleware.taggedSpan opts started r).tags =
      started.tags ++ (opts.spanObserver started r).tags ++
      [(Component, GoValue.str
        (if opts.componentName = "" then defaultComponentName else opts.componentName))] := by
  simp [Middleware.taggedSpan, Span.SetTags_tags, Span.SetTag]

theorem Middleware.taggedSpan_finishCalls (opts : mwOptions) (started : Span) (r : Request) :
    (Middleware.taggedSpan opts started r).finishCalls = started.finishCalls := by
  simp [Middleware.taggedSpan, Span.SetTags_finishCalls, Span.SetTag]

/-! ## The traced path, unfolded -/

/-- The invocation when the filter passes the request and the three calls made
before the `defer` statement return. -/
theorem Middleware.traced (tr : Tracer) (options : List MWOption) (next : HandlerFunc)
    (c : GinContext) (op url : String)
    (hfilter : (resolveOptions options).spanFilter c.Request = Call.returns true)
    (hop : (resolveOptions options).opNameFunc c.Request = Call.returns op)
    (hurl : (resolveOptions options).urlTagFunc c.Request.URL = Call.returns url)
    (hobs : ((resolveOptions options).spanObserver
      (Middleware.startedSpan tr op url c.Request) c.Request).exit = none) :
    Middleware tr options next c =
      let opts := resolveOptions options
      let started := Middleware.startedSpan tr op url c.Request
      let c1 := Middleware.tracedContext c (Middleware.taggedSpan opts started c.Request)
      let run := next c1
      let fin := Middleware.deferred ((Middleware.taggedSpan opts started c.Request).SetTags run.tags)
        { ResponseWriter := c.Writer, status := 0, size := 0 } run.exit
      { extractCalls := [c.Request.Header], spans := [fin.1],
        observerCalls := [(started, c.Request)],
        nextCalls := [c1], trackers := [{ ResponseWriter := c.Writer, status := 0, size := 0 }],
        written := run.writes.map (fun w => (c1.Writer, w)), panic := fin.2 } := by
  simp only [Middleware.startedSpan] at hobs
  simp only [Middleware, hfilter, hop, hurl, hobs, Middleware.startedSpan, Middleware.taggedSpan,
    Middleware.tracedContext]

/-- The handler is run on a traced request only when the three calls made
before the `defer` statement returned, and then on the traced context. -/
theorem Middleware.reached (tr : Tracer) (options : List MWOption) (next : HandlerFunc)
    (c c1 : GinContext)
    (hfilter : (resolveOptions options).spanFilter c.Request = Call.returns true)
    (hrun : c1 ∈ (Middleware tr options next c).nextCalls) :
    ∃ op url,
      (resolveOptions options).opNameFunc c.Request = Call.returns op ∧
      (resolveOptions options).urlTagFunc c.Request.URL = Call.returns url ∧
      ((resolveOptions options).spanObserver
        (Middleware.startedSpan tr op url c.Request) c.Request).exit = none ∧
      c1 = Middleware.tracedContext c (Middleware.taggedSpan (resolveOptions options)
        (Middleware.startedSpan tr op url c.Request) c.Request) := by
  cases hop : (resolveOptions options).opNameFunc c.Request with
  | panics v => simp [Middleware, hfilter, hop, Outcome.aborted] at hrun
  | returns op =>
    cases hurl : (resolveOptions options).urlTagFunc c.Request.URL with
    | panics v => simp [Middleware, hfilter, hop, hurl, Outcome.aborted] at hrun
    | returns url =>
      cases hobs : ((resolveOptions options).spanObserver
          (Middleware.startedSpan tr op url c.Request) c.Request).exit with
      | some v =>
        have hobs2 := hobs
        simp only [Middleware.startedSpan] at hobs2
        simp [Middleware, hfilter, hop, hurl, hobs2, Outcome.aborted] at hrun
      | none =>
        rw [Middleware.traced tr options next c op url hfilter hop hurl hobs] at hrun
        simp only [List.mem_singleton] at hrun
        exact ⟨op, url, rfl, rfl, hobs, hrun⟩

/-- Span lifecycle on the traced path, shared by the results below. -/
theorem Middleware.finished_once (tr : Tracer) (options : List MWOption)
    (next : HandlerFunc) (c : GinContext) (op url : String)
    (hfilter : (resolveOptions options).spanFilter c.Request = Call.returns true)
    (hop : (resolveOptions options).opNameFunc c.Request = Call.returns op)
    (hurl : (resolveOptions options).urlTagFunc c.Request.URL = Call.returns url)
    (hobs : ((resolveOptions options).spanObserver
      (Middleware.startedSpan tr op url c.Request) c.Request).exit = none) :
    ∃ sp active c1,
      (Middleware tr options next c).spans = [sp] ∧ sp.finishCalls = 1 ∧
      (Middleware tr options next c).nextCalls = [c1] ∧
      SpanFromContext c1.Request.Context = some active ∧ active.finishCalls = 0 ∧
      (Middleware tr options next c).extractCalls.length = 1 := by
  rw [Middleware.traced tr options next c op url hfilter hop hurl hobs]
  refine ⟨_, _, _, rfl, ?_, rfl, rfl, ?_, rfl⟩
  · simp [Middleware.deferred_finishCalls, Span.SetTags_finishCalls,
      Middleware.taggedSpan_finishCalls, Middleware.startedSpan_finishCalls]
  · simp [Middleware.taggedSpan_finishCalls, Middleware.startedSpan_finishCalls]

/-- The complete tag log of the finished span: the start tag, method and URL, the
observer's writes, the component name, the handler's writes, and then the
status 200 after a return or the error flag after a panic.  The handler's
writer calls do not enter. -/
theorem Middleware.finished_tags (tr : Tracer) (options : List MWOption) (next : HandlerFunc)
    (c : GinContext) (op url : String)
    (hfilter : (resolveOptions options).spanFilter c.Request = Call.returns true)
    (hop : (resolveOptions options).opNameFunc c.Request = Call.returns op)
    (hurl : (resolveOptions options).urlTagFunc c.Request.URL = Call.returns url)
    (hobs : ((resolveOptions options).spanObserver
      (Middleware.startedSpan tr op url c.Request) c.Request).exit = none) :
    ∃ sp,
      (Middleware tr options next c).spans = [sp] ∧
      sp.finishCalls = 1 ∧
      sp.tags =
        (Middleware.taggedSpan (resolveOptions options)
          (Middleware.startedSpan tr op url c.Request) c.Request).tags ++
        (next (Middleware.tracedContext c (Middleware.taggedSpan (resolveOptions options)
          (Middleware.startedSpan tr op url c.Request) c.Request))).tags ++
        (match (next (Middleware.tracedContext c (Middleware.taggedSpan (resolveOptions options)
            (Middleware.startedSpan tr op url c.Request) c.Request))).exit with
          | none => [(HTTPStatusCode, GoValue.uint16 200)]
          | some _ => [(Error, GoValue.bool true)]) := by
  rw [Middleware.traced tr options next c op url hfilter hop hurl hobs]
  refine ⟨_, rfl, ?_, ?_⟩
  · simp [Middleware.deferred_finishCalls, Span.SetTags_finishCalls,
      Middleware.taggedSpan_finishCalls, Middleware.startedSpan_finishCalls]
  · cases hexit : (next (Middleware.tracedContext c (Middleware.taggedSpan (resolveOptions options)
        (Middleware.startedSpan tr op url c.Request) c.Request))).exit with
    | none => simp [hexit, Middleware.returned_tags, Span.SetTags_tags]
    | some v => simp [hexit, Middleware.panicked_tags, Span.SetTags_tags]

/-- A span the middleware has finished exists only on the path that reached the
handler. -/
theorem Middleware.finished_reached (tr : Tracer) (options : List MWOption) (next : HandlerFunc)
    (c : GinContext) (sp : Span)
    (hmem : sp ∈ (Middleware tr options next c).spans) (hfin : sp.finishCalls ≠ 0) :
    (Middleware tr options next c).nextCalls ≠ [] := by
  cases hfilter : (resolveOptions options).spanFilter c.Request with
  | panics v => simp [Middleware, hfilter, Outcome.aborted] at hmem
  | returns b =>
    cases b with
    | false => simp [Middleware, hfilter] at hmem
    | true =>
      cases hop : (resolveOptions options).opNameFunc c.Request with
      | panics v => simp [Middleware, hfilter, hop, Outcome.aborted] at hmem
      | returns op =>
        cases hurl : (resolveOptions options).urlTagFunc c.Request.URL with
        | panics v =>
          simp only [Middleware, hfilter, hop, hurl, Outcome.aborted, List.mem_singleton] at hmem
          subst hmem
          simp [Span.SetTag, StartSpan] at hfin
        | returns url =>
          cases hobs : ((resolveOptions options).spanObserver
              (Middleware.startedSpan tr op url c.Request) c.Request).exit with
          | some v =>
            have hobs2 := hobs
            simp only [Middleware.startedSpan] at hobs2
            simp only [Middleware, hfilter, hop, hurl, hobs2, Outcome.aborted,
              List.mem_singleton] at hmem
            subst hmem
            simp [Span.SetTags_finishCalls, Span.SetTag, StartSpan] at hfin
          | none =>
            rw [Middleware.traced tr options next c op url hfilter hop hurl hobs]
            simp

/-! ## Span lifecycle -/

/-- C1 as stated fails: the span observer and the URL-tag function run after
`StartSpan` and before the `defer` statement, so when one of them panics on a
request that passed the filter the span has been started and `Finish` is never
called on it; when the operation-name function panics no span is started at
all.  In each case the handler is not reached and the panic leaves the
middleware. -/
theorem Middleware_callback_panic_leaks_span :
    ((resolveOptions [MWSpanObserver failingObserver]).spanFilter pingContext.Request
        = Call.returns true ∧
      ∃ sp,
        (Middleware rootTracer [MWSpanObserver failingObserver] silentHandler pingContext).spans
          = [sp] ∧
        sp.finishCalls = 0 ∧
        (Middleware rootTracer [MWSpanObserver failingObserver] silentHandler
          pingContext).nextCalls = [] ∧
        (Middleware rootTracer [MWSpanObserver failingObserver] silentHandler pingContext).panic
          = some (GoValue.str "observer failed")) ∧
    ((resolveOptions [MWURLTagFunc failingURLTag]).spanFilter pingContext.Request
        = Call.returns true ∧
      ∃ sp,
        (Middleware rootTracer [MWURLTagFunc failingURLTag] silentHandler pingContext).spans
          = [sp] ∧
        sp.finishCalls = 0 ∧
        (Middleware rootTracer [MWURLTagFunc failingURLTag] silentHandler pingContext).panic
          = some (GoValue.str "bad url")) ∧
    ((resolveOptions [OperationNameFunc failingOpName]).spanFilter pingContext.Request
        = Call.returns true ∧
      (Middleware rootTracer [OperationNameFunc failingOpName] silentHandler pingContext).spans
        = [] ∧
      (Middleware rootTracer [OperationNameFunc failingOpName] silentHandler pingContext).panic
        = some (GoValue.str "no name")) := by
  refine ⟨⟨rfl, _, rfl, ?_, ?_, ?_⟩, ⟨rfl, _, rfl, ?_, ?_⟩, ⟨rfl, ?_, ?_⟩⟩ <;> decide

/-- C1 amended: for a request that passes the span filter and on which the
operation-name function, the URL-tag function and the span observer return
without panicking, whatever the downstream handler does (return or panic with
any value), the middleware extracts once, starts exactly one span, hands it to
the handler unfinished, and calls `Finish` on it exactly once. -/
theorem Middleware_one_span_finished_once (tr : Tracer) (options : List MWOption)
    (next : HandlerFunc) (c : GinContext) (op url : String)
    (hfilter : (resolveOptions options).spanFilter c.Request = Call.returns true)
    (hop : (resolveOptions options).opNameFunc c.Request = Call.returns op)
    (hurl : (resolveOptions options).urlTagFunc c.Request.URL = Call.returns url)
    (hobs : ((resolveOptions options).spanObserver
      (Middleware.startedSpan tr op url c.Request) c.Request).exit = none) :
    ∃ sp active c1,
      (Middleware tr options next c).spans = [sp] ∧ sp.finishCalls = 1 ∧
      (Middleware tr options next c).nextCalls = [c1] ∧
      SpanFromContext c1.Request.Context = some active ∧ active.finishCalls = 0 ∧
      (Middleware tr options next c).extractCalls.length = 1 :=
  Middleware.finished_once tr options next c op url hfilter hop hurl hobs

theorem Middleware_one_span_finished_once_witness :
    ∃ sp active c1,
      (Middleware rootTracer [] (panicHandler (GoValue.str "boom")) pingContext).spans = [sp] ∧
      sp.finishCalls = 1 ∧
      (Middleware rootTracer [] (panicHandler (GoValue.str "boom")) pingContext).nextCalls
        = [c1] ∧
      SpanFromContext c1.Request.Context = some active ∧ active.finishCalls = 0 ∧
      (Middleware rootTracer [] (panicHandler (GoValue.str "boom")) pingContext).extractCalls.length
        = 1 :=
  Middleware_one_span_finished_once rootTracer [] (panicHandler (GoValue.str "boom"))
    pingContext "HTTP GET" "/ping" rfl rfl rfl rfl

/-- C2: for a request that passes the span filter and a handler that panics with
a value `v` on the context the middleware runs it on, the span the middleware
finishes carries the error tag `true`, it has been finished (once) by the time
the panic leaves the middleware, and the panic that leaves the middleware
carries the same value `v`. -/
theorem Middleware_panic_tagged_finished_rethrown (tr : Tracer) (options : List MWOption)
    (next : HandlerFunc) (c c1 : GinContext) (v : GoValue)
    (hfilter : (resolveOptions options).spanFilter c.Request = Call.returns true)
    (hrun : c1 ∈ (Middleware tr options next c).nextCalls)
    (hpanic : (next c1).exit = some v) :
    ∃ sp,
      (Middleware tr options next c).spans = [sp] ∧
      sp.tag Error = some (GoValue.bool true) ∧
      sp.finishCalls = 1 ∧
      (Middleware tr options next c).panic = some v := by
  obtain ⟨op, url, hop, hurl, hobs, rfl⟩ := Middleware.reached tr options next c c1 hfilter hrun
  rw [Middleware.traced tr options next c op url hfilter hop hurl hobs]
  refine ⟨_, rfl, ?_, ?_, ?_⟩
  · simp [hpanic, Middleware.deferred_fresh_panic, Span.tag, Span.Finish, Span.SetTag,
      lastWrite_append_singleton_same]
  · simp [hpanic, Middleware.deferred_fresh_panic, Span.Finish, Span.SetTag,
      Span.SetTags_finishCalls, Middleware.taggedSpan_finishCalls,
      Middleware.startedSpan_finishCalls]
  · simp [hpanic, Middleware.deferred_fresh_panic]

theorem Middleware_panic_tagged_finished_rethrown_witness :
    ∃ sp,
      (Middleware rootTracer [] (panicHandler (GoValue.int 7)) pingContext).spans = [sp] ∧
      sp.tag Error = some (GoValue.bool true) ∧
      sp.finishCalls = 1 ∧
      (Middleware rootTracer [] (panicHandler (GoValue.int 7)) pingContext).panic
        = some (GoValue.int 7) :=
  Middleware_panic_tagged_finished_rethrown rootTracer [] (panicHandler (GoValue.int 7))
    pingContext
    (Middleware.tracedContext pingContext (Middleware.taggedSpan (resolveOptions [])
      (Middleware.startedSpan rootTracer "HTTP GET" "/ping" pingContext.Request)
      pingContext.Request))
    (GoValue.int 7) rfl (by decide) rfl

/-- C3: when the configured span filter returns false on the request, the
middleware runs the downstream handler exactly once on the very context it
received (same request, same request context, same writer) and does nothing
else: no `Extract`, no `StartSpan`, no observer call, no tracker, hence no tag
and no `Finish`; the handler's writes reach the original writer and its exit
(return or panic) is passed on as it is. -/
theorem Middleware_filtered_out_untouched (tr : Tracer) (options : List MWOption)
    (next : HandlerFunc) (c : GinContext)
    (hfilter : (resolveOptions options).spanFilter c.Request = Call.returns false) :
    (Middleware tr options next c).nextCalls = [c] ∧
    (Middleware tr options next c).extractCalls = [] ∧
    (Middleware tr options next c).spans = [] ∧
    (Middleware tr options next c).observerCalls = [] ∧
    (Middleware tr options next c).trackers = [] ∧
    (Middleware tr options next c).written = (next c).writes.map (fun w => (c.Writer, w)) ∧
    (Middleware tr options next c).panic = (next c).exit := by
  simp [Middleware, hfilter]

theorem Middleware_filtered_out_untouched_witness :
    (resolveOptions [MWSpanFilter (fun r => Call.returns (r.Method != "GET"))]).spanFilter
      pingContext.Request = Call.returns false ∧
    (Middleware rootTracer [MWSpanFilter (fun r => Call.returns (r.Method != "GET"))]
      (statusHandler 404) pingContext).nextCalls = [pingContext] ∧
    (Middleware rootTracer [MWSpanFilter (fun r => Call.returns (r.Method != "GET"))]
      (statusHandler 404) pingContext).extractCalls = [] ∧
    (Middleware rootTracer [MWSpanFilter (fun r => Call.returns (r.Method != "GET"))]
      (statusHandler 404) pingContext).spans = [] ∧
    (Middleware rootTracer [MWSpanFilter (fun r => Call.returns (r.Method != "GET"))]
      (statusHandler 404) pingContext).observerCalls = [] ∧
    (Middleware rootTracer [MWSpanFilter (fun r => Call.returns (r.Method != "GET"))]
      (statusHandler 404) pingContext).trackers = [] ∧
    (Middleware rootTracer [MWSpanFilter (fun r => Call.returns (r.Method != "GET"))]
      (statusHandler 404) pingContext).written
        = ((statusHandler 404) pingContext).writes.map (fun w => (pingContext.Writer, w)) ∧
    (Middleware rootTracer [MWSpanFilter (fun r => Call.returns (r.Method != "GET"))]
      (statusHandler 404) pingContext).panic = ((statusHandler 404) pingContext).exit :=
  ⟨by decide, Middleware_filtered_out_untouched rootTracer
    [MWSpanFilter (fun r => Call.returns (r.Method != "GET"))] (statusHandler 404) pingContext
    (by decide)⟩

/-! ## Status and size tags -/

/-- C6 as stated fails on its second half: a handler that returns without
setting a status and without panicking, but tags the span it finds in the
request context as an error, leaves a finished span with status tag 200 and
with the error tag set. -/
theorem Middleware_handler_error_tag_stays :
    (resolveOptions []).spanFilter pingContext.Request = Call.returns true ∧
    (∃ c1,
      (Middleware rootTracer [] taggingHandler pingContext).nextCalls = [c1] ∧
      (taggingHandler c1).exit = none ∧
      (∀ code, WriterCall.WriteHeader code ∉ (taggingHandler c1).writes)) ∧
    ∃ sp,
      (Middleware rootTracer [] taggingHandler pingContext).spans = [sp] ∧
      sp.finishCalls = 1 ∧
      sp.tag HTTPStatusCode = some (GoValue.uint16 200) ∧
      sp.tag Error = some (GoValue.bool true) := by
  refine ⟨rfl, ⟨_, rfl, rfl, ?_⟩, _, rfl, ?_, ?_, ?_⟩
  · intro code
    simp [taggingHandler]
  · decide
  · decide
  · decide

/-- C6 amended: for a request that passes the span filter, if the downstream
handler returns without panicking and without ever setting a status, the span
is finished once with the HTTP status tag 200, no panic leaves the middleware,
and the middleware sets no error tag: the error tag on the finished span is the
one the observer or the handler last wrote themselves, and there is none when
neither wrote one. -/
theorem Middleware_unset_status_tagged_200 (tr : Tracer) (options : List MWOption)
    (next : HandlerFunc) (c c1 : GinContext)
    (hfilter : (resolveOptions options).spanFilter c.Request = Call.returns true)
    (hrun : c1 ∈ (Middleware tr options next c).nextCalls)
    (hreturn : (next c1).exit = none)
    (_hnostatus : ∀ code, WriterCall.WriteHeader code ∉ (next c1).writes) :
    ∃ sp observed,
      (Middleware tr options next c).spans = [sp] ∧
      sp.finishCalls = 1 ∧
      sp.tag HTTPStatusCode = some (GoValue.uint16 200) ∧
      (Middleware tr options next c).panic = none ∧
      (Middleware tr options next c).observerCalls = [(observed, c.Request)] ∧
      sp.tag Error = lastWrite Error
        (((resolveOptions options).spanObserver observed c.Request).tags ++ (next c1).tags) ∧
      ((∀ v, (Error, v) ∉ ((resolveOptions options).spanObserver observed c.Request).tags) →
        (∀ v, (Error, v) ∉ (next c1).tags) → sp.tag Error = none) := by
  obtain ⟨op, url, hop, hurl, hobs, rfl⟩ := Middleware.reached tr options next c c1 hfilter hrun
  have herr : lastWrite Error
      ((Middleware.taggedSpan (resolveOptions options)
          (Middleware.startedSpan tr op url c.Request) c.Request).tags ++
        (next (Middleware.tracedContext c (Middleware.taggedSpan (resolveOptions options)
          (Middleware.startedSpan tr op url c.Request) c.Request))).tags ++
        [(HTTPStatusCode, GoValue.uint16 200)]) =
      lastWrite Error
        (((resolveOptions options).spanObserver
            (Middleware.startedSpan tr op url c.Request) c.Request).tags ++
          (next (Middleware.tracedContext c (Middleware.taggedSpan (resolveOptions options)
            (Middleware.startedSpan tr op url c.Request) c.Request))).tags) := by
    rw [lastWrite_append_singleton_other Error HTTPStatusCode _ _ (by decide),
      Middleware.taggedSpan_tags, Middleware.startedSpan_tags]
    rw [lastWrite_append, lastWrite_append Error _ (next _).tags]
    congr 1
    rw [lastWrite_append_singleton_other Error Component _ _ (by decide), lastWrite_append]
    have hstart : lastWrite Error
        [(SpanKind, GoValue.str "server"), (HTTPMethod, GoValue.str c.Request.Method),
          (HTTPUrl, GoValue.str url)] = none := by
      rw [lastWrite_eq_none_iff]
      intro v hv
      simp only [List.mem_cons, List.mem_singleton, Prod.mk.injEq, List.not_mem_nil,
        or_false] at hv
      rcases hv with h | h | h <;> exact absurd h.1 (by decide)
    rw [hstart]
    cases lastWrite Error ((resolveOptions options).spanObserver
      (Middleware.startedSpan tr op url c.Request) c.Request).tags <;> rfl
  rw [Middleware.traced tr options next c op url hfilter hop hurl hobs]
  refine ⟨_, _, rfl, ?_, ?_, ?_, rfl, ?_, ?_⟩
  · simp [Middleware.deferred_finishCalls, Span.SetTags_finishCalls,
      Middleware.taggedSpan_finishCalls, Middleware.startedSpan_finishCalls]
  · simp [hreturn, Span.tag, Middleware.returned_tags, lastWrite_append_singleton_same]
  · simp [hreturn, Middleware.deferred_fresh_return]
  · simp only [hreturn, Span.tag, Middleware.returned_tags, Span.SetTags_tags]
    exact herr
  · intro h1 h2
    simp only [hreturn, Span.tag, Middleware.returned_tags, Span.SetTags_tags]
    rw [herr, lastWrite_eq_none_iff]
    intro v hv
    rcases List.mem_append.mp hv with h | h
    · exact h1 v h
    · exact h2 v h

theorem Middleware_unset_status_tagged_200_witness :
    ∃ sp observed,
      (Middleware rootTracer [] silentHandler pingContext).spans = [sp] ∧
      sp.finishCalls = 1 ∧
      sp.tag HTTPStatusCode = some (GoValue.uint16 200) ∧
      (Middleware rootTracer [] silentHandler pingContext).panic = none ∧
      (Middleware rootTracer [] silentHandler pingContext).observerCalls
        = [(observed, pingContext.Request)] ∧
      sp.tag Error = lastWrite Error
        (((resolveOptions []).spanObserver observed pingContext.Request).tags ++
          (silentHandler (Middleware.tracedContext pingContext
            (Middleware.taggedSpan (resolveOptions [])
              (Middleware.startedSpan rootTracer "HTTP GET" "/ping" pingContext.Request)
              pingContext.Request))).tags) ∧
      ((∀ v, (Error, v) ∉ ((resolveOptions []).spanObserver observed pingContext.Request).tags) →
        (∀ v, (Error, v) ∉ (silentHandler (Middleware.tracedContext pingContext
            (Middleware.taggedSpan (resolveOptions [])
              (Middleware.startedSpan rootTracer "HTTP GET" "/ping" pingContext.Request)
              pingContext.Request))).tags) → sp.tag Error = none) :=
  Middleware_unset_status_tagged_200 rootTracer [] silentHandler pingContext
    (Middleware.tracedContext pingContext (Middleware.taggedSpan (resolveOptions [])
      (Middleware.startedSpan rootTracer "HTTP GET" "/ping" pingContext.Request)
      pingContext.Request))
    rfl (by decide) rfl (by intro code; simp [silentHandler])

/-- The finalizer reads the tracker exactly as the middleware built it: the
handler's writes go to the writer of the context, which is not the tracker. -/
theorem Middleware.tracker_never_written (tr : Tracer) (options : List MWOption)
    (next : HandlerFunc) (c c1 : GinContext)
    (hfilter : (resolveOptions options).spanFilter c.Request = Call.returns true)
    (hrun : c1 ∈ (Middleware tr options next c).nextCalls) :
    (Middleware tr options next c).trackers =
      [{ ResponseWriter := c.Writer, status := 0, size := 0 }] ∧
    ∀ w call, (w, call) ∈ (Middleware tr options next c).written → w = c.Writer := by
  obtain ⟨op, url, hop, hurl, hobs, rfl⟩ := Middleware.reached tr options next c c1 hfilter hrun
  rw [Middleware.traced tr options next c op url hfilter hop hurl hobs]
  refine ⟨rfl, ?_⟩
  intro w call h
  simp only [List.mem_map, Prod.mk.injEq] at h
  obtain ⟨_, _, hw, _⟩ := h
  exact hw.symm

/-- C4, the code at the failing inputs: a handler that sets status 404 and
returns leaves a span whose status tag is 200, and a handler that sets status
503 leaves a span whose status tag is 200 and that has no error tag, although
in both runs the call `WriteHeader` reached the writer and a tracker receiving
it would have recorded 404 and 503. -/
theorem Middleware_explicit_status_not_observed :
    (∃ sp,
      (Middleware rootTracer [] (statusHandler 404) pingContext).spans = [sp] ∧
      (Middleware rootTracer [] (statusHandler 404) pingContext).written
        = [(pingContext.Writer, WriterCall.WriteHeader 404)] ∧
      sp.tag HTTPStatusCode = some (GoValue.uint16 200)) ∧
    (∃ sp,
      (Middleware rootTracer [] (statusHandler 503) pingContext).spans = [sp] ∧
      (Middleware rootTracer [] (statusHandler 503) pingContext).written
        = [(pingContext.Writer, WriterCall.WriteHeader 503)] ∧
      sp.tag HTTPStatusCode = some (GoValue.uint16 200) ∧
      sp.tag Error = none) ∧
    (metricsTracker.receive { ResponseWriter := pingContext.Writer, status := 0, size := 0 }
      [WriterCall.WriteHeader 404]).status = 404 ∧
    (metricsTracker.receive { ResponseWriter := pingContext.Writer, status := 0, size := 0 }
      [WriterCall.WriteHeader 503]).status = 503 := by
  refine ⟨⟨_, rfl, rfl, ?_⟩, ⟨_, rfl, rfl, ?_, ?_⟩, ?_, ?_⟩ <;> decide

/-- C5, the code at the failing input: a handler that writes a 37-byte body and
then a 63-byte body leaves a span without any response size tag, although both
writes reached the writer and a tracker receiving them would have counted 100
bytes. -/
theorem Middleware_response_size_not_observed :
    ∃ sp,
      (Middleware rootTracer [] bodyHandler pingContext).spans = [sp] ∧
      (Middleware rootTracer [] bodyHandler pingContext).written
        = [(pingContext.Writer, WriterCall.Write 37), (pingContext.Writer, WriterCall.Write 63)] ∧
      sp.tag responseSizeKey = none ∧
      (∀ v, (responseSizeKey, v) ∉ sp.tags) ∧
      (metricsTracker.receive { ResponseWriter := pingContext.Writer, status := 0, size := 0 }
        [WriterCall.Write 37, WriterCall.Write 63]).size = 100 := by
  refine ⟨_, rfl, rfl, ?_, ?_, ?_⟩
  · decide
  · rw [← lastWrite_eq_none_iff]
    decide
  · decide

/-! ## Observer and standard tags -/

/-- The observer is called once, on the started span, as soon as the
operation-name function and the URL-tag function have returned. -/
theorem Middleware.observerCalls_eq (tr : Tracer) (options : List MWOption) (next : HandlerFunc)
    (c : GinContext) (op url : String)
    (hfilter : (resolveOptions options).spanFilter c.Request = Call.returns true)
    (hop : (resolveOptions options).opNameFunc c.Request = Call.returns op)
    (hurl : (resolveOptions options).urlTagFunc c.Request.URL = Call.returns url) :
    (Middleware tr options next c).observerCalls =
      [(Middleware.startedSpan tr op url c.Request, c.Request)] := by
  cases hobs : ((resolveOptions options).spanObserver
      (Middleware.startedSpan tr op url c.Request) c.Request).exit with
  | some v =>
    have hobs2 := hobs
    simp only [Middleware.startedSpan] at hobs2
    simp [Middleware, hfilter, hop, hurl, hobs2, Outcome.aborted, Middleware.startedSpan]
  | none => rw [Middleware.traced tr options next c op url hfilter hop hurl hobs]

/-- An observer call happens only after the operation-name function and the
URL-tag function returned. -/
theorem Middleware.observed (tr : Tracer) (options : List MWOption) (next : HandlerFunc)
    (c : GinContext) (observed : Span) (r : Request)
    (hfilter : (resolveOptions options).spanFilter c.Request = Call.returns true)
    (hcall : (observed, r) ∈ (Middleware tr options next c).observerCalls) :
    ∃ op url,
      (resolveOptions options).opNameFunc c.Request = Call.returns op ∧
      (resolveOptions options).urlTagFunc c.Request.URL = Call.returns url ∧
      observed = Middleware.startedSpan tr op url c.Request ∧ r = c.Request := by
  cases hop : (resolveOptions options).opNameFunc c.Request with
  | panics v => simp [Middleware, hfilter, hop, Outcome.aborted] at hcall
  | returns op =>
    cases hurl : (resolveOptions options).urlTagFunc c.Request.URL with
    | panics v => simp [Middleware, hfilter, hop, hurl, Outcome.aborted] at hcall
    | returns url =>
      rw [Middleware.observerCalls_eq tr options next c op url hfilter hop hurl] at hcall
      simp only [List.mem_singleton, Prod.mk.injEq] at hcall
      exact ⟨op, url, rfl, rfl, hcall.1, hcall.2⟩

/-- C10 as stated fails: with the default options the span handed to the observer
has no component tag yet, and a component tag the observer sets is overwritten
by the fallback name before the handler runs. -/
theorem Middleware_observer_before_component :
    (∃ sp r,
      (Middleware rootTracer [] silentHandler pingContext).observerCalls = [(sp, r)] ∧
      sp.tag Component = none) ∧
    (∃ c1 sp,
      (Middleware rootTracer [MWSpanObserver componentObserver] silentHandler
        pingContext).nextCalls = [c1] ∧
      SpanFromContext c1.Request.Context = some sp ∧
      lastWrite Component (componentObserver sp pingRequest).tags = some (GoValue.str "mine") ∧
      sp.tag Component = some (GoValue.str "net/http")) := by
  refine ⟨⟨_, _, rfl, ?_⟩, ⟨_, _, rfl, rfl, ?_, ?_⟩⟩ <;> decide

/-- C10 amended: for a request that passes the span filter, whenever the observer
is invoked it is invoked once, on the request, with a span that carries the
HTTP method tag and the HTTP URL tag (the value `urlTagFunc` returned on the
request URL) and no component tag; the component name (the configured one if
non-empty, otherwise `"net/http"`) is set after the observer and is what the
handler finds on the span; a tag the observer sets under the method or URL key
is still on the span the handler finds.  The observer is invoked as soon as
the operation-name and URL-tag functions have returned, and the handler runs
as soon as the observer has returned as well. -/
theorem Middleware_observer_sees_method_and_url (tr : Tracer) (options : List MWOption)
    (next : HandlerFunc) (c : GinContext)
    (hfilter : (resolveOptions options).spanFilter c.Request = Call.returns true) :
    (∀ observed r, (observed, r) ∈ (Middleware tr options next c).observerCalls →
      (Middleware tr options next c).observerCalls = [(observed, c.Request)] ∧
      r = c.Request ∧
      observed.tag HTTPMethod = some (GoValue.str c.Request.Method) ∧
      (∃ url, (resolveOptions options).urlTagFunc c.Request.URL = Call.returns url ∧
        observed.tag HTTPUrl = some (GoValue.str url)) ∧
      observed.tag Component = none) ∧
    (∀ c1, c1 ∈ (Middleware tr options next c).nextCalls →
      ∃ observed sp,
        (Middleware tr options next c).observerCalls = [(observed, c.Request)] ∧
        (Middleware tr options next c).nextCalls = [c1] ∧
        SpanFromContext c1.Request.Context = some sp ∧
        sp.tag Component = some (GoValue.str
          (if (resolveOptions options).componentName = "" then "net/http"
            else (resolveOptions options).componentName)) ∧
        ∀ k v, (k = HTTPMethod ∨ k = HTTPUrl) →
          lastWrite k ((resolveOptions options).spanObserver observed c.Request).tags = some v →
          sp.tag k = some v) ∧
    (∀ op url,
      (resolveOptions options).opNameFunc c.Request = Call.returns op →
      (resolveOptions options).urlTagFunc c.Request.URL = Call.returns url →
      (Middleware tr options next c).observerCalls =
        [(Middleware.startedSpan tr op url c.Request, c.Request)] ∧
      (((resolveOptions options).spanObserver
          (Middleware.startedSpan tr op url c.Request) c.Request).exit = none →
        ∃ c1, (Middleware tr options next c).nextCalls = [c1])) := by
  refine ⟨?_, ?_, ?_⟩
  · intro observed r hcall
    obtain ⟨op, url, hop, hurl, rfl, rfl⟩ :=
      Middleware.observed tr options next c observed r hfilter hcall
    refine ⟨Middleware.observerCalls_eq tr options next c op url hfilter hop hurl, rfl, ?_,
      ⟨url, hurl, ?_⟩, ?_⟩
    · simp only [Span.tag, Middleware.startedSpan_tags]
      simp [lastWrite, HTTPMethod, HTTPUrl, SpanKind]
    · simp only [Span.tag, Middleware.startedSpan_tags]
      simp [lastWrite, HTTPMethod, HTTPUrl, SpanKind]
    · simp only [Span.tag, Middleware.startedSpan_tags]
      simp [lastWrite, HTTPMethod, HTTPUrl, SpanKind, Component]
  · intro c1 hrun
    obtain ⟨op, url, hop, hurl, hobs, rfl⟩ :=
      Middleware.reached tr options next c c1 hfilter hrun
    refine ⟨_, _, Middleware.observerCalls_eq tr options next c op url hfilter hop hurl, ?_, rfl,
      ?_, ?_⟩
    · rw [Middleware.traced tr options next c op url hfilter hop hurl hobs]
    · simp only [Span.tag, Middleware.taggedSpan_tags, lastWrite_append_singleton_same]
      rfl
    · intro k v hk hv
      have hne : Component ≠ k := by
        rcases hk with rfl | rfl <;> decide
      simp only [Span.tag, Middleware.taggedSpan_tags]
      rw [lastWrite_append_singleton_other k Component _ _ hne, lastWrite_append, hv]
  · intro op url hop hurl
    refine ⟨Middleware.observerCalls_eq tr options next c op url hfilter hop hurl, ?_⟩
    intro hobs
    rw [Middleware.traced tr options next c op url hfilter hop hurl hobs]
    exact ⟨_, rfl⟩

theorem Middleware_observer_sees_method_and_url_witness :
    (resolveOptions [MWSpanObserver componentObserver]).spanFilter pingContext.Request
      = Call.returns true ∧
    ((∀ observed r, (observed, r) ∈ (Middleware rootTracer [MWSpanObserver componentObserver]
          silentHandler pingContext).observerCalls →
      (Middleware rootTracer [MWSpanObserver componentObserver] silentHandler
        pingContext).observerCalls = [(observed, pingContext.Request)] ∧
      r = pingContext.Request ∧
      observed.tag HTTPMethod = some (GoValue.str pingContext.Request.Method) ∧
      (∃ url, (resolveOptions [MWSpanObserver componentObserver]).urlTagFunc
          pingContext.Request.URL = Call.returns url ∧
        observed.tag HTTPUrl = some (GoValue.str url)) ∧
      observed.tag Component = none) ∧
    (∀ c1, c1 ∈ (Middleware rootTracer [MWSpanObserver componentObserver] silentHandler
          pingContext).nextCalls →
      ∃ observed sp,
        (Middleware rootTracer [MWSpanObserver componentObserver] silentHandler
          pingContext).observerCalls = [(observed, pingContext.Request)] ∧
        (Middleware rootTracer [MWSpanObserver componentObserver] silentHandler
          pingContext).nextCalls = [c1] ∧
        SpanFromContext c1.Request.Context = some sp ∧
        sp.tag Component = some (GoValue.str
          (if (resolveOptions [MWSpanObserver componentObserver]).componentName = ""
            then "net/http"
            else (resolveOptions [MWSpanObserver componentObserver]).componentName)) ∧
        ∀ k v, (k = HTTPMethod ∨ k = HTTPUrl) →
          lastWrite k ((resolveOptions [MWSpanObserver componentObserver]).spanObserver observed
            pingContext.Request).tags = some v →
          sp.tag k = some v) ∧
    (∀ op url,
      (resolveOptions [MWSpanObserver componentObserver]).opNameFunc pingContext.Request
        = Call.returns op →
      (resolveOptions [MWSpanObserver componentObserver]).urlTagFunc pingContext.Request.URL
        = Call.returns url →
      (Middleware rootTracer [MWSpanObserver componentObserver] silentHandler
        pingContext).observerCalls =
        [(Middleware.startedSpan rootTracer op url pingContext.Request, pingContext.Request)] ∧
      (((resolveOptions [MWSpanObserver componentObserver]).spanObserver
          (Middleware.startedSpan rootTracer op url pingContext.Request)
          pingContext.Request).exit = none →
        ∃ c1, (Middleware rootTracer [MWSpanObserver componentObserver] silentHandler
          pingContext).nextCalls = [c1]))) :=
  ⟨rfl, Middleware_observer_sees_method_and_url rootTracer [MWSpanObserver componentObserver]
    silentHandler pingContext rfl⟩

/-! ## Resolving the configuration -/

theorem lastSetting_append_singleton {α : Type} (pick : Modifier → Option α) (ms : List Modifier)
    (m : Modifier) :
    lastSetting pick (ms ++ [m]) =
      match pick m with
      | some x => some x
      | none => lastSetting pick ms := by
  simp only [lastSetting, List.reverse_append, List.reverse_cons, List.reverse_nil,
    List.nil_append, List.singleton_append, List.findSome?_cons]
  cases pick m <;> rfl

theorem lastSetting_append {α : Type} (pick : Modifier → Option α) (a b : List Modifier) :
    lastSetting pick (a ++ b) =
      match lastSetting pick b with
      | some x => some x
      | none => lastSetting pick a := by
  simp only [lastSetting, List.reverse_append, List.findSome?_append]
  cases List.findSome? pick b.reverse <;> rfl

/-- Running the modifiers over any starting configuration. -/
theorem foldl_option (ms : List Modifier) (base : mwOptions) :
    (ms.map Modifier.option).foldl (fun opts opt => opt opts) base =
      { opNameFunc := (lastSetting Modifier.opNameFunc? ms).getD base.opNameFunc
        spanFilter := (lastSetting Modifier.spanFilter? ms).getD base.spanFilter
        spanObserver := (lastSetting Modifier.spanObserver? ms).getD base.spanObserver
        urlTagFunc := (lastSetting Modifier.urlTagFunc? ms).getD base.urlTagFunc
        componentName := (lastSetting Modifier.componentName? ms).getD base.componentName } := by
  induction ms using List.reverseRecOn with
  | nil => simp [lastSetting]
  | append_singleton ms m ih =>
    rw [List.map_append, List.foldl_append, ih]
    simp only [lastSetting_append_singleton]
    cases m <;>
      simp [Modifier.option, OperationNameFunc, MWComponentName, MWSpanFilter, MWSpanObserver,
        MWURLTagFunc, Modifier.opNameFunc?, Modifier.componentName?, Modifier.spanFilter?,
        Modifier.spanObserver?, Modifier.urlTagFunc?]

theorem resolveOptions_modifiers (ms : List Modifier) :
    resolveOptions (ms.map Modifier.option) = lastWriterWins ms := by
  simp [resolveOptions, lastWriterWins, foldl_option]

theorem Mid.structured_eq (trCfg : Option Config) :
    Mid.structured trCfg = (structuredSettings trCfg).map Modifier.option := by
  cases trCfg with
  | none => rfl
  | some cfg =>
    simp only [Mid.structured, structuredSettings]
    by_cases hname : cfg.ComponentName = "" <;> cases hfilter : cfg.SpanFilter <;>
      simp [hname, Modifier.option]

theorem Mid.mwOpts_eq (trCfg : Option Config) (ms : List Modifier) :
    Mid.mwOpts trCfg (ms.map Modifier.option) =
      (structuredSettings trCfg ++ ms).map Modifier.option := by
  simp [Mid.mwOpts, Mid.structured_eq]

theorem structuredSettings_observer (cfg : Config) :
    lastSetting Modifier.spanObserver? (structuredSettings (some cfg)) =
      some (Mid.observer cfg) := by
  simp only [structuredSettings]
  by_cases hname : cfg.ComponentName = "" <;> cases hfilter : cfg.SpanFilter <;>
    simp [hname, lastSetting, Modifier.spanObserver?]

theorem structuredSettings_componentName (cfg : Config) :
    (lastSetting Modifier.componentName? (structuredSettings (some cfg))).getD "" =
      cfg.ComponentName := by
  simp only [structuredSettings]
  by_cases hname : cfg.ComponentName = "" <;> cases hfilter : cfg.SpanFilter <;>
    simp [hname, lastSetting, Modifier.componentName?]

theorem structuredSettings_spanFilter (cfg : Config) :
    lastSetting Modifier.spanFilter? (structuredSettings (some cfg)) = cfg.SpanFilter := by
  simp only [structuredSettings]
  by_cases hname : cfg.ComponentName = "" <;> cases hfilter : cfg.SpanFilter <;>
    simp [hname, lastSetting, Modifier.spanFilter?]

theorem Mid.resolved (trCfg : Option Config) (ms : List Modifier) :
    resolveOptions (Mid.mwOpts trCfg (ms.map Modifier.option)) =
      lastWriterWins (structuredSettings trCfg ++ ms) := by
  rw [Mid.mwOpts_eq, resolveOptions_modifiers]

/-- C8: the effective configuration is a last-writer-wins fold.  For every list
of modifiers each field of the resolved options is the value given by the last
modifier in the list that sets it, and the built-in default when none does.
`Mid` runs the structured settings of the config (the observer always, the
component name only if non-empty, the span filter only if non-nil; nothing for
a nil config) before the explicit modifiers: an explicit modifier for a field
gives that field its value, and where no explicit modifier sets a field of a
non-nil config the structured setting stands. -/
theorem resolveOptions_last_writer_wins (trCfg : Option Config) (ms : List Modifier) :
    resolveOptions (ms.map Modifier.option) = lastWriterWins ms ∧
    Mid.mwOpts trCfg (ms.map Modifier.option) =
      (structuredSettings trCfg ++ ms).map Modifier.option ∧
    resolveOptions (Mid.mwOpts trCfg (ms.map Modifier.option)) =
      lastWriterWins (structuredSettings trCfg ++ ms) ∧
    (∀ f, lastSetting Modifier.opNameFunc? ms = some f →
      (resolveOptions (Mid.mwOpts trCfg (ms.map Modifier.option))).opNameFunc = f) ∧
    (∀ f, lastSetting Modifier.spanFilter? ms = some f →
      (resolveOptions (Mid.mwOpts trCfg (ms.map Modifier.option))).spanFilter = f) ∧
    (∀ f, lastSetting Modifier.spanObserver? ms = some f →
      (resolveOptions (Mid.mwOpts trCfg (ms.map Modifier.option))).spanObserver = f) ∧
    (∀ f, lastSetting Modifier.urlTagFunc? ms = some f →
      (resolveOptions (Mid.mwOpts trCfg (ms.map Modifier.option))).urlTagFunc = f) ∧
    (∀ name, lastSetting Modifier.componentName? ms = some name →
      (resolveOptions (Mid.mwOpts trCfg (ms.map Modifier.option))).componentName = name) ∧
    (∀ cfg, trCfg = some cfg →
      (lastSetting Modifier.spanObserver? ms = none →
        (resolveOptions (Mid.mwOpts trCfg (ms.map Modifier.option))).spanObserver
          = Mid.observer cfg) ∧
      (lastSetting Modifier.componentName? ms = none →
        (resolveOptions (Mid.mwOpts trCfg (ms.map Modifier.option))).componentName
          = cfg.ComponentName) ∧
      (lastSetting Modifier.spanFilter? ms = none →
        (resolveOptions (Mid.mwOpts trCfg (ms.map Modifier.option))).spanFilter
          = cfg.SpanFilter.getD defaultOptions.spanFilter)) := by
  refine ⟨resolveOptions_modifiers ms, Mid.mwOpts_eq trCfg ms, Mid.resolved trCfg ms,
    ?_, ?_, ?_, ?_, ?_, ?_⟩
  · intro f h
    simp [Mid.resolved, lastWriterWins, lastSetting_append, h]
  · intro f h
    simp [Mid.resolved, lastWriterWins, lastSetting_append, h]
  · intro f h
    simp [Mid.resolved, lastWriterWins, lastSetting_append, h]
  · intro f h
    simp [Mid.resolved, lastWriterWins, lastSetting_append, h]
  · intro name h
    simp [Mid.resolved, lastWriterWins, lastSetting_append, h]
  · intro cfg hcfg
    subst hcfg
    refine ⟨?_, ?_, ?_⟩
    · intro h
      simp [Mid.resolved, lastWriterWins, lastSetting_append, h, structuredSettings_observer]
    · intro h
      simp only [Mid.resolved, lastWriterWins, lastSetting_append, h, defaultOptions]
      exact structuredSettings_componentName cfg
    · intro h
      simp [Mid.resolved, lastWriterWins, lastSetting_append, h, structuredSettings_spanFilter]

/-! ## Static tags -/

/-- C7 as stated fails: an explicit observer modifier replaces the observer that
carries the static tags, so on a traced request the tag of the config is not
on the finished span. -/
theorem Mid_static_tag_lost_to_explicit_observer :
    (resolveOptions (Mid.mwOpts (some teamConfig) [MWSpanObserver quietObserver])).spanFilter
      pingContext.Request = Call.returns true ∧
    ("team", GoValue.str "core") ∈ teamConfig.Tags ∧
    ∃ sp,
      (Mid rootTracer (some teamConfig) [MWSpanObserver quietObserver] silentHandler
        pingContext).spans = [sp] ∧
      sp.finishCalls = 1 ∧
      sp.tag "team" = none := by
  refine ⟨rfl, by decide, _, rfl, ?_, ?_⟩ <;> decide

theorem Mid.observer_lastWrite (cfg : Config) (sp : Span) (r : Request) (k : String)
    (v : GoValue) (hmap : (cfg.Tags.map Prod.fst).Nodup) (hmem : (k, v) ∈ cfg.Tags) :
    lastWrite k (Mid.observer cfg sp r).tags = some v := by
  simp only [Mid.observer]
  rw [lastWrite_append, lastWrite_of_mem_nodup k v cfg.Tags hmap hmem]

/-- The static tag on the finished span, on the path that reached the handler. -/
theorem Mid.static_tag_reached (tr : Tracer) (cfg : Config) (ms : List Modifier)
    (next : HandlerFunc) (c c1 : GinContext) (k : String) (v : GoValue)
    (hmap : (cfg.Tags.map Prod.fst).Nodup)
    (hobserver : lastSetting Modifier.spanObserver? ms = none)
    (hfilter : (resolveOptions (Mid.mwOpts (some cfg) (ms.map Modifier.option))).spanFilter
      c.Request = Call.returns true)
    (hmem : (k, v) ∈ cfg.Tags)
    (hkey : k ∉ [Component, HTTPStatusCode, responseSizeKey, Error])
    (hrun : c1 ∈ (Mid tr (some cfg) (ms.map Modifier.option) next c).nextCalls)
    (hhandler : ∀ w, (k, w) ∉ (next c1).tags) :
    ∃ sp,
      (Mid tr (some cfg) (ms.map Modifier.option) next c).spans = [sp] ∧
      sp.finishCalls = 1 ∧
      sp.tag k = some v := by
  have hobs : (resolveOptions (Mid.mwOpts (some cfg) (ms.map Modifier.option))).spanObserver
      = Mid.observer cfg := by
    simp [Mid.resolved, lastWriterWins, lastSetting_append, hobserver,
      structuredSettings_observer]
  simp only [List.mem_cons, List.mem_singleton, List.not_mem_nil, or_false, not_or] at hkey
  obtain ⟨hcomp, hstatus, _, herror⟩ := hkey
  obtain ⟨op, url, hop, hurl, hexit, rfl⟩ := Middleware.reached tr
    (Mid.mwOpts (some cfg) (ms.map Modifier.option)) next c c1 hfilter hrun
  obtain ⟨sp, hsp, hfin, htags⟩ := Middleware.finished_tags tr
    (Mid.mwOpts (some cfg) (ms.map Modifier.option)) next c op url hfilter hop hurl hexit
  refine ⟨sp, hsp, hfin, ?_⟩
  have hnone := (lastWrite_eq_none_iff k _).mpr hhandler
  have hlast : lastWrite k
      (match (next (Middleware.tracedContext c (Middleware.taggedSpan
          (resolveOptions (Mid.mwOpts (some cfg) (ms.map Modifier.option)))
          (Middleware.startedSpan tr op url c.Request) c.Request))).exit with
        | none => [(HTTPStatusCode, GoValue.uint16 200)]
        | some _ => [(Error, GoValue.bool true)]) = none := by
    cases (next (Middleware.tracedContext c (Middleware.taggedSpan
        (resolveOptions (Mid.mwOpts (some cfg) (ms.map Modifier.option)))
        (Middleware.startedSpan tr op url c.Request) c.Request))).exit with
    | none => simp [lastWrite, Ne.symm hstatus]
    | some _ => simp [lastWrite, Ne.symm herror]
  simp only [Span.tag, htags, Middleware.taggedSpan_tags]
  rw [lastWrite_append, hlast]
  simp only
  rw [lastWrite_append, hnone]
  simp only
  rw [lastWrite_append_singleton_other k Component _ _ (Ne.symm hcomp), lastWrite_append, hobs,
    Mid.observer_lastWrite cfg _ _ k v hmap hmem]

/-- C7 amended: for a non-nil config passed to `Mid` with explicit modifiers none
of which sets the span observer, for every request that passes the effective
span filter and every handler behaviour (any writes, return or panic), each
key/value pair of `Config.Tags` is on the finished span with that value,
provided its key is none of the keys the middleware writes after the observer
(component, HTTP status code, response size, error) and the handler does not
write that key on the span itself.  Whenever the handler is run there is
exactly one span, finished once, and it carries the pair; and every span the
middleware has finished carries it. -/
theorem Mid_static_tags_on_finished_span (tr : Tracer) (cfg : Config) (ms : List Modifier)
    (next : HandlerFunc) (c : GinContext) (k : String) (v : GoValue)
    (hmap : (cfg.Tags.map Prod.fst).Nodup)
    (hobserver : lastSetting Modifier.spanObserver? ms = none)
    (hfilter : (resolveOptions (Mid.mwOpts (some cfg) (ms.map Modifier.option))).spanFilter
      c.Request = Call.returns true)
    (hmem : (k, v) ∈ cfg.Tags)
    (hkey : k ∉ [Component, HTTPStatusCode, responseSizeKey, Error])
    (hhandler : ∀ c1, c1 ∈ (Mid tr (some cfg) (ms.map Modifier.option) next c).nextCalls →
      ∀ w, (k, w) ∉ (next c1).tags) :
    (∀ c1, c1 ∈ (Mid tr (some cfg) (ms.map Modifier.option) next c).nextCalls →
      ∃ sp,
        (Mid tr (some cfg) (ms.map Modifier.option) next c).spans = [sp] ∧
        sp.finishCalls = 1 ∧
        sp.tag k = some v) ∧
    (∀ sp, sp ∈ (Mid tr (some cfg) (ms.map Modifier.option) next c).spans →
      sp.finishCalls ≠ 0 → sp.finishCalls = 1 ∧ sp.tag k = some v) := by
  have hfirst : ∀ c1, c1 ∈ (Mid tr (some cfg) (ms.map Modifier.option) next c).nextCalls →
      ∃ sp,
        (Mid tr (some cfg) (ms.map Modifier.option) next c).spans = [sp] ∧
        sp.finishCalls = 1 ∧
        sp.tag k = some v := fun c1 hrun =>
    Mid.static_tag_reached tr cfg ms next c c1 k v hmap hobserver hfilter hmem hkey hrun
      (hhandler c1 hrun)
  refine ⟨hfirst, ?_⟩
  intro sp hsp hfin
  have hne := Middleware.finished_reached tr (Mid.mwOpts (some cfg) (ms.map Modifier.option))
    next c sp hsp hfin
  obtain ⟨c1, hc1⟩ := List.exists_mem_of_ne_nil _ hne
  obtain ⟨sp1, hspans, hfin1, htag⟩ := hfirst c1 hc1
  rw [hspans, List.mem_singleton] at hsp
  subst hsp
  exact ⟨hfin1, htag⟩

theorem Mid_static_tags_on_finished_span_witness :
    (∀ c1, c1 ∈ (Mid rootTracer (some teamConfig)
        ([Modifier.componentName "api"].map Modifier.option)
        (panicHandler (GoValue.str "boom")) pingContext).nextCalls →
      ∃ sp,
        (Mid rootTracer (some teamConfig)
          ([Modifier.componentName "api"].map Modifier.option)
          (panicHandler (GoValue.str "boom")) pingContext).spans = [sp] ∧
        sp.finishCalls = 1 ∧
        sp.tag "team" = some (GoValue.str "core")) ∧
    (∀ sp, sp ∈ (Mid rootTracer (some teamConfig)
        ([Modifier.componentName "api"].map Modifier.option)
        (panicHandler (GoValue.str "boom")) pingContext).spans →
      sp.finishCalls ≠ 0 → sp.finishCalls = 1 ∧ sp.tag "team" = some (GoValue.str "core")) :=
  Mid_static_tags_on_finished_span rootTracer teamConfig [Modifier.componentName "api"]
    (panicHandler (GoValue.str "boom")) pingContext "team" (GoValue.str "core")
    (by decide) (by rfl) (by rfl) (by decide) (by decide)
    (by intro c1 _ w; simp [panicHandler])

/-- The run of C7's witness does reach the handler and finish one span that
carries the static tag. -/
theorem Mid.static_tag_example :
    ∃ c1 sp,
      (Mid rootTracer (some teamConfig) ([Modifier.componentName "api"].map Modifier.option)
        (panicHandler (GoValue.str "boom")) pingContext).nextCalls = [c1] ∧
      (Mid rootTracer (some teamConfig) ([Modifier.componentName "api"].map Modifier.option)
        (panicHandler (GoValue.str "boom")) pingContext).spans = [sp] ∧
      sp.finishCalls = 1 ∧
      sp.tag "team" = some (GoValue.str "core") ∧
      sp.tag Component = some (GoValue.str "api") := by
  refine ⟨_, _, rfl, rfl, ?_, ?_, ?_⟩ <;> decide

/-! ## Logger construction -/

/-- The production constructor reports an unparseable, non-empty level: no logger
is returned and the parser's error is. -/
theorem ProdLogger_unparseable (zap : Zap) (logLevel err : String) (hne : logLevel ≠ "")
    (hparse : zap.UnmarshalText logLevel = Except.error err) :
    ProdLogger zap logLevel = (none, some err) ∧
    ProdLogging zap logLevel = ({ zapLogger := none }, some err) := by
  simp [ProdLogging, ProdLogger, hne, hparse]

/-- The development constructor never looks at the level string. -/
theorem DevLogger_ignores_level (zap : Zap) (logLevel other : String) :
    DevLogger zap logLevel = DevLogger zap other ∧
    DevLogging zap logLevel = DevLogging zap other := by
  simp [DevLogging, DevLogger]

/-- C9, the code at the failing input: the level string `"bogus"` is rejected by
the level parser and `ProdLogger` and `ProdLogging` report that error without a
logger, but `DevLogger` and `DevLogging` return a usable logger and no error:
the unparseable level is silently ignored there. -/
theorem DevLogger_accepts_unparseable_level :
    plainZap.UnmarshalText "bogus" = Except.error "unrecognized level" ∧
    ProdLogger plainZap "bogus" = (none, some "unrecognized level") ∧
    ProdLogging plainZap "bogus" = ({ zapLogger := none }, some "unrecognized level") ∧
    DevLogger plainZap "bogus" =
      (some { config := NewDevelopmentConfig,
              options := [ZapOption.AddStacktrace Level.FatalLevel, ZapOption.AddCallerSkip 1] },
        none) ∧
    (DevLogging plainZap "bogus").1.zapLogger ≠ none ∧
    (DevLogging plainZap "bogus").2 = none := by
  refine ⟨by simp [plainZap], ?_, ?_, ?_, ?_, ?_⟩
  · simp [ProdLogger, plainZap]
  · simp [ProdLogging, ProdLogger, plainZap]
  · rfl
  · simp [DevLogging, DevLogger, Zap.NewDevelopment, plainZap, toResult]
  · rfl

end Jog
